import Mathlib

/-!
Verification of the odometer-tracker core (`src/lib/calculations.ts` and the
database trigger `validate_reading_sequence`) against its specification.

Dates are `YYYY-MM-DD` strings in the source, compared both lexicographically
(string `<`, `===`) and via `Date.getTime()`; on well-formed calendar dates the
two orders agree, so a date is embedded as a year/month/day triple ordered by
the numeric key `year*10000 + month*100 + day`.  The `YYYY-MM` month key strings
used by `calculateMonthlyMileage` and `fillMonthlyMileageGaps` are compared only
for equality, and the formatting is injective on (year, month), so month keys
are embedded as a structural year/month pair.  JS numbers on these code paths
hold integers, embedded as `Int`.  `dayjs()` (the evaluation-time clock) in
`fillMonthlyMileageGaps` becomes an explicit current-month parameter.
-/

structure Date where
  year : Nat
  month : Nat
  day : Nat
deriving DecidableEq, Repr

/-- Chronological key of a date; on calendar dates (month ≤ 12, day ≤ 31) it
is injective and orders dates exactly as `Date.getTime()` and as the
lexicographic order on the `YYYY-MM-DD` string. -/
def Date.key (d : Date) : Nat := d.year * 10000 + d.month * 100 + d.day

/-- A `YYYY-MM` month key (the strings are compared only for equality in the
source, and formatting is injective, so the structural pair is faithful). -/
structure Ym where
  year : Nat
  month : Nat
deriving DecidableEq, Repr

def Date.ym (d : Date) : Ym := ⟨d.year, d.month⟩

/-- Linear index of a month, used to model `dayjs.add/subtract(_, 'month')`. -/
def Ym.idx (m : Ym) : Nat := m.year * 12 + (m.month - 1)

def Ym.ofIdx (i : Nat) : Ym := ⟨i / 12, i % 12 + 1⟩

/-- Month abbreviation as produced by dayjs format `MMM` (en locale). -/
def monthAbbrev : Nat → String
  | 1 => "Jan" | 2 => "Feb" | 3 => "Mar" | 4 => "Apr"
  | 5 => "May" | 6 => "Jun" | 7 => "Jul" | 8 => "Aug"
  | 9 => "Sep" | 10 => "Oct" | 11 => "Nov" | _ => "Dec"

/-- Zero-padded 4-digit year, as produced by dayjs format `YYYY`. -/
def pad4 (n : Nat) : String :=
  if n < 10 then "000" ++ toString n
  else if n < 100 then "00" ++ toString n
  else if n < 1000 then "0" ++ toString n
  else toString n

/-- dayjs `format('MMM YYYY')`. -/
def formatMMMYYYY (d : Date) : String := monthAbbrev d.month ++ " " ++ pad4 d.year

/-- dayjs `format('MMM YYYY')` on a month key. -/
def ymLabel (m : Ym) : String := monthAbbrev m.month ++ " " ++ pad4 m.year

/-- Helper for `formatNumber`: comma after every group of three characters of a
reversed digit list. -/
def insertCommasRev : List Char → List Char
  | a :: b :: c :: d :: rest => a :: b :: c :: ',' :: insertCommasRev (d :: rest)
  | l => l

/-- Embeds `formatNumber` (`num.toLocaleString()`, en-US grouping). -/
def formatNumber (n : Int) : String :=
  (if n < 0 then "-" else "") ++ String.mk (insertCommasRev (toString n.natAbs).toList.reverse).reverse

/-- Embeds the `OdometerReading` interface (fields the core reads; `notes`,
`createdAt`, `updatedAt` are never consulted by the functions under study). -/
structure OdometerReading where
  id : String
  carId : String
  date : Date
  reading : Int
deriving DecidableEq, Repr

/-- Embeds the `Car` interface (fields the core reads; the descriptive fields
`name`, `make`, `model`, `year`, `color`, `isActive`, timestamps are never
consulted by the functions under study). -/
structure Car where
  id : String
  initialOdometer : Option Int
  trackingStartDate : Option Date
deriving DecidableEq, Repr

/-- Embeds the `MonthlyMileage` interface. -/
structure MonthlyMileage where
  month : Ym
  monthLabel : String
  mileage : Int
  reading : Int
  previousReading : Option Int
deriving DecidableEq, Repr

/-- Embeds the return type of `validateReadingInSequence`. -/
structure ValidationResult where
  isValid : Bool
  error : Option String
  minValue : Option Int
  maxValue : Option Int
deriving DecidableEq, Repr

/-- Ascending-by-date comparator, `(a, b) => new Date(a.date).getTime() - new Date(b.date).getTime()`. -/
def dateAscR (a b : OdometerReading) : Prop := a.date.key ≤ b.date.key

/-- Descending-by-date comparator, `(a, b) => new Date(b.date).getTime() - new Date(a.date).getTime()`. -/
def dateDescR (a b : OdometerReading) : Prop := b.date.key ≤ a.date.key

instance : DecidableRel dateAscR := fun a b => Nat.decLe a.date.key b.date.key

instance : DecidableRel dateDescR := fun a b => Nat.decLe b.date.key a.date.key

instance : IsTotal OdometerReading dateAscR :=
  ⟨fun a b => Nat.le_total a.date.key b.date.key⟩

instance : IsTrans OdometerReading dateAscR :=
  ⟨fun _ _ _ h1 h2 => Nat.le_trans h1 h2⟩

instance : IsTotal OdometerReading dateDescR :=
  ⟨fun a b => Nat.le_total b.date.key a.date.key⟩

instance : IsTrans OdometerReading dateDescR :=
  ⟨fun _ _ _ h1 h2 => Nat.le_trans h2 h1⟩

/-- The car's readings sorted ascending by date, the common preamble of
`calculateMonthlyMileage` and `calculateYTDMileage`. -/
def carReadingsSorted (readings : List OdometerReading) (carId : String) :
    List OdometerReading :=
  (readings.filter (fun r => r.carId == carId)).insertionSort dateAscR

/-- Record pushed by one loop iteration of `calculateMonthlyMileage`. -/
def mkMonthly (current : OdometerReading) (mileage : Int)
    (previousReading : Option Int) : MonthlyMileage :=
  { month := current.date.ym
    monthLabel := formatMMMYYYY current.date
    mileage := mileage
    reading := current.reading
    previousReading := previousReading }

/-- First-iteration mileage of `calculateMonthlyMileage`: 0 unless the car has
both `initialOdometer` and `trackingStartDate` and the tracking start is in the
same calendar month as the first reading (dayjs `isSame(_, 'month')` also
compares the year), in which case `Math.max(0, reading - initialOdometer)`. -/
def firstMileage (car : Option Car) (current : OdometerReading) : Int :=
  match car with
  | some c =>
    match c.initialOdometer, c.trackingStartDate with
    | some io, some ts =>
      if ts.ym == current.date.ym then max 0 (current.reading - io) else 0
    | _, _ => 0
  | none => 0

/-- Loop iterations `i ≥ 1` of `calculateMonthlyMileage`: mileage is
`current.reading - previous.reading`, unclamped. -/
def monthlyRest : OdometerReading → List OdometerReading → List MonthlyMileage
  | _, [] => []
  | prev, cur :: rest =>
    mkMonthly cur (cur.reading - prev.reading) (some prev.reading) :: monthlyRest cur rest

/-- Embeds `calculateMonthlyMileage` from `src/lib/calculations.ts`. -/
def calculateMonthlyMileage (readings : List OdometerReading) (carId : String)
    (car : Option Car) : List MonthlyMileage :=
  match carReadingsSorted readings carId with
  | [] => []
  | first :: rest =>
    mkMonthly first (firstMileage car first) none :: monthlyRest first rest

/-- Lookup in the `Map` built by `monthlyData.forEach((item) => dataMap.set(item.month, item))`:
the last record set for a key wins. -/
def dataMapLookup (monthlyData : List MonthlyMileage) (key : Ym) :
    Option MonthlyMileage :=
  (monthlyData.filter (fun m => m.month == key)).getLast?

/-- The all-zero placeholder record `fillMonthlyMileageGaps` pushes for a month
with no data. -/
def synthMonthly (key : Ym) : MonthlyMileage :=
  { month := key
    monthLabel := ymLabel key
    mileage := 0
    reading := 0
    previousReading := none }

/-- Embeds `fillMonthlyMileageGaps`.  The source reads the clock (`dayjs()`);
here the current month `nowYm` is an explicit parameter.  The TS signature
restricts `monthsToShow` to `6 | 12`; the embedding takes any count. -/
def fillMonthlyMileageGaps (monthlyData : List MonthlyMileage)
    (monthsToShow : Nat) (nowYm : Ym) : List MonthlyMileage :=
  let startIdx := nowYm.idx - (monthsToShow - 1)
  (List.range monthsToShow).map (fun i =>
    let key := Ym.ofIdx (startIdx + i)
    match dataMapLookup monthlyData key with
    | some existing => existing
    | none => synthMonthly key)

/-- Is `r` dated within calendar year `year` (string comparison
`r.date >= year-01-01 && r.date <= year-12-31` in the source)? -/
def inYearB (year : Nat) (r : OdometerReading) : Bool :=
  (Date.key ⟨year, 1, 1⟩ ≤ r.date.key) && (r.date.key ≤ Date.key ⟨year, 12, 31⟩)

/-- The single-reading-no-anchor branch of `calculateYTDMileage`: uses the
baseline only when both fields are present and the tracking start's year
(`dayjs(_).year()`) equals the queried year, clamped at 0. -/
def ytdBaseline (car : Option Car) (year : Nat) (y0 : OdometerReading) : Int :=
  match car with
  | some c =>
    match c.initialOdometer, c.trackingStartDate with
    | some io, some ts =>
      if ts.year == year then max 0 (y0.reading - io) else 0
    | _, _ => 0
  | none => 0

/-- Embeds `calculateYTDMileage` from `src/lib/calculations.ts`. -/
def calculateYTDMileage (readings : List OdometerReading) (carId : String)
    (year : Nat) (car : Option Car) : Int :=
  let carReadings := carReadingsSorted readings carId
  if carReadings.isEmpty then 0
  else
    match carReadings.filter (inYearB year) with
    | [] => 0
    | y0 :: ys =>
      let lastReadingBeforeYear :=
        (carReadings.filter (fun r => r.date.key < Date.key ⟨year, 1, 1⟩)).getLast?
      if ys.isEmpty && lastReadingBeforeYear.isNone then
        ytdBaseline car year y0
      else
        let firstReading := lastReadingBeforeYear.getD y0
        let lastReading := ys.getLastD y0
        lastReading.reading - firstReading.reading

/-- Embeds `getReadingBeforeDate`: car's readings strictly before `targetDate`,
sorted descending by date, first element. -/
def getReadingBeforeDate (readings : List OdometerReading) (carId : String)
    (targetDate : Date) : Option OdometerReading :=
  ((readings.filter (fun r => r.carId == carId && r.date.key < targetDate.key)).insertionSort dateDescR).head?

/-- Embeds `getReadingAfterDate`: car's readings strictly after `targetDate`,
sorted ascending by date, first element. -/
def getReadingAfterDate (readings : List OdometerReading) (carId : String)
    (targetDate : Date) : Option OdometerReading :=
  ((readings.filter (fun r => r.carId == carId && targetDate.key < r.date.key)).insertionSort dateAscR).head?

/-- The `excludeId` pre-filter of `validateReadingInSequence`. -/
def filterExclude (readings : List OdometerReading) (excludeId : Option String) :
    List OdometerReading :=
  match excludeId with
  | some eid => readings.filter (fun r => r.id != eid)
  | none => readings

/-- Error string of the below-predecessor rejection. -/
def belowError (p : OdometerReading) : String :=
  "Reading must be at least " ++ formatNumber p.reading ++ " mi (" ++
    formatMMMYYYY p.date ++ " reading)"

/-- Error string of the above-successor rejection. -/
def aboveError (nxt : OdometerReading) : String :=
  "Reading cannot exceed " ++ formatNumber nxt.reading ++ " mi (" ++
    formatMMMYYYY nxt.date ++ " reading)"

/-- Error string of the duplicate-date rejection. -/
def duplicateError (targetDate : Date) : String :=
  "A reading already exists for " ++ formatMMMYYYY targetDate

/-- Embeds `validateReadingInSequence` from `src/lib/calculations.ts`. -/
def validateReadingInSequence (readings : List OdometerReading) (carId : String)
    (targetDate : Date) (targetReading : Int) (excludeId : Option String) :
    ValidationResult :=
  let filteredReadings := filterExclude readings excludeId
  let previousReading := getReadingBeforeDate filteredReadings carId targetDate
  let nextReading := getReadingAfterDate filteredReadings carId targetDate
  if (filteredReadings.find? (fun r => r.carId == carId && r.date == targetDate)).isSome then
    { isValid := false, error := some (duplicateError targetDate)
      minValue := none, maxValue := none }
  else
    match previousReading with
    | some p =>
      if targetReading < p.reading then
        { isValid := false, error := some (belowError p)
          minValue := some p.reading, maxValue := none }
      else
        match nextReading with
        | some nxt =>
          if nxt.reading < targetReading then
            { isValid := false, error := some (aboveError nxt)
              minValue := none, maxValue := some nxt.reading }
          else
            { isValid := true, error := none
              minValue := some p.reading, maxValue := some nxt.reading }
        | none =>
          { isValid := true, error := none
            minValue := some p.reading, maxValue := none }
    | none =>
      match nextReading with
      | some nxt =>
        if nxt.reading < targetReading then
          { isValid := false, error := some (aboveError nxt)
            minValue := none, maxValue := some nxt.reading }
        else
          { isValid := true, error := none
            minValue := none, maxValue := some nxt.reading }
      | none =>
        { isValid := true, error := none, minValue := none, maxValue := none }

/-- `SELECT reading ... WHERE car_id = NEW.car_id AND date < NEW.date AND
id != NEW.id ORDER BY date DESC LIMIT 1` from the trigger: the qualifying rows
sorted descending by date, first row or NULL. -/
def selectPrevReading (table : List OdometerReading) (newRow : OdometerReading) :
    Option OdometerReading :=
  ((table.filter (fun r =>
      r.carId == newRow.carId && r.date.key < newRow.date.key && r.id != newRow.id)).insertionSort
    dateDescR).head?

/-- `SELECT reading ... WHERE car_id = NEW.car_id AND date > NEW.date AND
id != NEW.id ORDER BY date ASC LIMIT 1` from the trigger: the qualifying rows
sorted ascending by date, first row or NULL. -/
def selectNextReading (table : List OdometerReading) (newRow : OdometerReading) :
    Option OdometerReading :=
  ((table.filter (fun r =>
      r.carId == newRow.carId && newRow.date.key < r.date.key && r.id != newRow.id)).insertionSort
    dateAscR).head?

/-- Embeds the plpgsql trigger function `validate_reading_sequence`
(`src/unnamed/part_014`): `true` iff the trigger raises an exception for the
candidate row `newRow` against table state `table` and car table `cars`. -/
def validate_reading_sequence (table : List OdometerReading) (cars : List Car)
    (newRow : OdometerReading) : Bool :=
  let prev := selectPrevReading table newRow
  let next := selectNextReading table newRow
  (match prev with
   | some p => newRow.reading < p.reading
   | none => false) ||
  (match next with
   | some n => n.reading < newRow.reading
   | none => false) ||
  (match prev with
   | some _ => false
   | none =>
     match (cars.find? (fun c => c.id == newRow.carId)).bind Car.initialOdometer with
     | some io => newRow.reading < io
     | none => false)

/-- `p` is the predecessor of date `d` in `carId`'s history: a reading of the
car dated strictly before `d`, and the latest such. -/
def isNearestBefore (readings : List OdometerReading) (carId : String) (d : Date)
    (p : OdometerReading) : Prop :=
  p ∈ readings ∧ p.carId = carId ∧ p.date.key < d.key ∧
    ∀ q ∈ readings, q.carId = carId → q.date.key < d.key → q.date.key ≤ p.date.key

/-- `s` is the successor of date `d` in `carId`'s history: a reading of the
car dated strictly after `d`, and the earliest such. -/
def isNearestAfter (readings : List OdometerReading) (carId : String) (d : Date)
    (s : OdometerReading) : Prop :=
  s ∈ readings ∧ s.carId = carId ∧ d.key < s.date.key ∧
    ∀ q ∈ readings, q.carId = carId → d.key < q.date.key → s.date.key ≤ q.date.key

/-- The data-model invariant that no two readings of a vehicle share a date. -/
def datesUnique (readings : List OdometerReading) (carId : String) : Prop :=
  ∀ p ∈ readings, ∀ q ∈ readings, p.carId = carId → q.carId = carId →
    p.date.key = q.date.key → p = q

/-- No reading of `carId` is dated exactly `d`. -/
def noReadingAt (readings : List OdometerReading) (carId : String) (d : Date) : Prop :=
  ∀ r ∈ readings, r.carId = carId → r.date ≠ d

instance (readings : List OdometerReading) (carId : String) (d : Date)
    (p : OdometerReading) : Decidable (isNearestBefore readings carId d p) := by
  unfold isNearestBefore; infer_instance

instance (readings : List OdometerReading) (carId : String) (d : Date)
    (s : OdometerReading) : Decidable (isNearestAfter readings carId d s) := by
  unfold isNearestAfter; infer_instance

instance (readings : List OdometerReading) (carId : String) :
    Decidable (datesUnique readings carId) := by
  unfold datesUnique; infer_instance

instance (readings : List OdometerReading) (carId : String) (d : Date) :
    Decidable (noReadingAt readings carId d) := by
  unfold noReadingAt; infer_instance

/-- Concrete history from spec Scenario 1: two readings of car-1 one year apart. -/
def exR1 : OdometerReading := ⟨"1", "car-1", ⟨2025, 1, 31⟩, 10000⟩

def exR2 : OdometerReading := ⟨"2", "car-1", ⟨2026, 1, 31⟩, 78000⟩

def exRmid : OdometerReading := ⟨"3", "car-1", ⟨2025, 6, 30⟩, 40000⟩

def exHist : List OdometerReading := [exR1, exR2]

/-- `exHist` with a third reading sitting exactly on the candidate date used in
the duplicate-date scenarios. -/
def exHistDup : List OdometerReading := [exR1, exRmid, exR2]

/-- The write-time invariant: a vehicle's odometer values are non-decreasing
along the chronological order of its readings. -/
def carNonDecreasing (readings : List OdometerReading) (carId : String) : Prop :=
  ∀ a ∈ readings, ∀ b ∈ readings, a.carId = carId → b.carId = carId →
    a.date.key ≤ b.date.key → a.reading ≤ b.reading

instance (readings : List OdometerReading) (carId : String) :
    Decidable (carNonDecreasing readings carId) := by
  unfold carNonDecreasing; infer_instance

/-- Does the optional car carry the all-or-nothing baseline pair
(`initialOdometer` and `trackingStartDate` both present)? -/
def hasBaseline : Option Car → Bool
  | some c => c.initialOdometer.isSome && c.trackingStartDate.isSome
  | none => false

/-- A history violating the non-decreasing invariant (as if imported without
validation): the second reading is lower than the first. -/
def exBad : List OdometerReading :=
  [⟨"1", "car-1", ⟨2024, 1, 1⟩, 100⟩, ⟨"2", "car-1", ⟨2024, 2, 1⟩, 40⟩]

/-- Car with a baseline whose tracking start shares the month of `exR1`. -/
def exCarJan : Option Car := some ⟨"car-1", some 9500, some ⟨2025, 1, 15⟩⟩

/-- Spec Scenario 2: a single reading with a same-year baseline. -/
def exSingle : List OdometerReading := [⟨"1", "car-1", ⟨2026, 1, 31⟩, 45800⟩]

def exCarB : Option Car := some ⟨"car-1", some 45000, some ⟨2026, 1, 1⟩⟩

/-- Two readings confined to the single year 2024, no baseline. -/
def ex2024 : List OdometerReading :=
  [⟨"1", "car-1", ⟨2024, 1, 1⟩, 10000⟩, ⟨"2", "car-1", ⟨2024, 3, 1⟩, 12000⟩]

/-- Spec Scenario 4 input: period records for March and June 2024 only. -/
def exFillData : List MonthlyMileage :=
  [⟨⟨2024, 3⟩, "Mar 2024", 500, 12000, some 11500⟩,
   ⟨⟨2024, 6⟩, "Jun 2024", 700, 12700, some 12000⟩]

/-- Two readings of the same vehicle on different days of the same month. -/
def exJune : List OdometerReading :=
  [⟨"1", "car-1", ⟨2024, 6, 10⟩, 100⟩, ⟨"2", "car-1", ⟨2024, 6, 20⟩, 150⟩]

/-- Car table with an initial odometer of 100 for car-1. -/
def exCars : List Car := [⟨"car-1", some 100, none⟩]

/-- A first reading below the car's initial odometer. -/
def exNewLow : OdometerReading := ⟨"new", "car-1", ⟨2024, 5, 1⟩, 50⟩

/-- A candidate row below its predecessor in `exHist`. -/
def exNewBelow : OdometerReading := ⟨"new", "car-1", ⟨2025, 6, 30⟩, 9000⟩

theorem insertionSort_eq_nil_iff {α : Type} {r : α → α → Prop} [DecidableRel r]
    {l : List α} : l.insertionSort r = [] ↔ l = [] := by
  constructor
  · intro h
    have hlen := (List.perm_insertionSort r l).length_eq
    rw [h] at hlen
    exact List.length_eq_zero.mp hlen.symm
  · intro h
    subst h
    rfl

theorem head_insertionSort_desc_max {S : List OdometerReading} {m : OdometerReading}
    (h : (S.insertionSort dateDescR).head? = some m) :
    m ∈ S ∧ ∀ x ∈ S, x.date.key ≤ m.date.key := by
  have hperm := List.perm_insertionSort dateDescR S
  have hsorted := List.sorted_insertionSort dateDescR S
  cases hsort : S.insertionSort dateDescR with
  | nil =>
    rw [hsort] at h
    exact absurd h (by simp)
  | cons a t =>
    rw [hsort] at h hsorted hperm
    have ham : a = m := by simpa using h
    subst ham
    refine ⟨hperm.mem_iff.mp (List.mem_cons_self a t), ?_⟩
    intro x hx
    rcases List.mem_cons.mp (hperm.mem_iff.mpr hx) with hxa | hxt
    · subst hxa
      exact Nat.le_refl _
    · exact List.rel_of_sorted_cons hsorted x hxt

theorem head_insertionSort_asc_min {S : List OdometerReading} {m : OdometerReading}
    (h : (S.insertionSort dateAscR).head? = some m) :
    m ∈ S ∧ ∀ x ∈ S, m.date.key ≤ x.date.key := by
  have hperm := List.perm_insertionSort dateAscR S
  have hsorted := List.sorted_insertionSort dateAscR S
  cases hsort : S.insertionSort dateAscR with
  | nil =>
    rw [hsort] at h
    exact absurd h (by simp)
  | cons a t =>
    rw [hsort] at h hsorted hperm
    have ham : a = m := by simpa using h
    subst ham
    refine ⟨hperm.mem_iff.mp (List.mem_cons_self a t), ?_⟩
    intro x hx
    rcases List.mem_cons.mp (hperm.mem_iff.mpr hx) with hxa | hxt
    · subst hxa
      exact Nat.le_refl _
    · exact List.rel_of_sorted_cons hsorted x hxt

theorem getReadingBeforeDate_eq_none_iff {readings : List OdometerReading}
    {carId : String} {d : Date} :
    getReadingBeforeDate readings carId d = none ↔
      ∀ r ∈ readings, r.carId = carId → ¬ r.date.key < d.key := by
  unfold getReadingBeforeDate
  rw [List.head?_eq_none_iff, insertionSort_eq_nil_iff, List.filter_eq_nil_iff]
  constructor
  · intro h r hr hcar hlt
    exact h r hr (by simp [hcar, hlt])
  · intro h a ha hpred
    simp only [Bool.and_eq_true, beq_iff_eq, decide_eq_true_eq] at hpred
    exact h a ha hpred.1 hpred.2

theorem getReadingAfterDate_eq_none_iff {readings : List OdometerReading}
    {carId : String} {d : Date} :
    getReadingAfterDate readings carId d = none ↔
      ∀ r ∈ readings, r.carId = carId → ¬ d.key < r.date.key := by
  unfold getReadingAfterDate
  rw [List.head?_eq_none_iff, insertionSort_eq_nil_iff, List.filter_eq_nil_iff]
  constructor
  · intro h r hr hcar hlt
    exact h r hr (by simp [hcar, hlt])
  · intro h a ha hpred
    simp only [Bool.and_eq_true, beq_iff_eq, decide_eq_true_eq] at hpred
    exact h a ha hpred.1 hpred.2

theorem getReadingBeforeDate_nearest_of_eq_some {readings : List OdometerReading}
    {carId : String} {d : Date} {m : OdometerReading}
    (h : getReadingBeforeDate readings carId d = some m) :
    isNearestBefore readings carId d m := by
  unfold getReadingBeforeDate at h
  obtain ⟨hmem, hmax⟩ := head_insertionSort_desc_max h
  rw [List.mem_filter] at hmem
  obtain ⟨h1, h2⟩ := hmem
  simp only [Bool.and_eq_true, beq_iff_eq, decide_eq_true_eq] at h2
  refine ⟨h1, h2.1, h2.2, ?_⟩
  intro q hq hqcar hqlt
  exact hmax q (List.mem_filter.mpr ⟨hq, by simp [hqcar, hqlt]⟩)

theorem getReadingAfterDate_nearest_of_eq_some {readings : List OdometerReading}
    {carId : String} {d : Date} {m : OdometerReading}
    (h : getReadingAfterDate readings carId d = some m) :
    isNearestAfter readings carId d m := by
  unfold getReadingAfterDate at h
  obtain ⟨hmem, hmax⟩ := head_insertionSort_asc_min h
  rw [List.mem_filter] at hmem
  obtain ⟨h1, h2⟩ := hmem
  simp only [Bool.and_eq_true, beq_iff_eq, decide_eq_true_eq] at h2
  refine ⟨h1, h2.1, h2.2, ?_⟩
  intro q hq hqcar hqlt
  exact hmax q (List.mem_filter.mpr ⟨hq, by simp [hqcar, hqlt]⟩)

theorem getReadingBeforeDate_of_nearest {readings : List OdometerReading}
    {carId : String} {d : Date} {p : OdometerReading}
    (hu : datesUnique readings carId) (hp : isNearestBefore readings carId d p) :
    getReadingBeforeDate readings carId d = some p := by
  obtain ⟨hpm, hpcar, hplt, hpmax⟩ := hp
  cases hres : getReadingBeforeDate readings carId d with
  | none =>
    rw [getReadingBeforeDate_eq_none_iff] at hres
    exact absurd hplt (hres p hpm hpcar)
  | some m =>
    obtain ⟨hmm, hmcar, hmlt, hmmax⟩ := getReadingBeforeDate_nearest_of_eq_some hres
    have h1 : m.date.key ≤ p.date.key := hpmax m hmm hmcar hmlt
    have h2 : p.date.key ≤ m.date.key := hmmax p hpm hpcar hplt
    rw [hu m hmm p hpm hmcar hpcar (Nat.le_antisymm h1 h2)]

theorem getReadingAfterDate_of_nearest {readings : List OdometerReading}
    {carId : String} {d : Date} {s : OdometerReading}
    (hu : datesUnique readings carId) (hs : isNearestAfter readings carId d s) :
    getReadingAfterDate readings carId d = some s := by
  obtain ⟨hsm, hscar, hslt, hsmax⟩ := hs
  cases hres : getReadingAfterDate readings carId d with
  | none =>
    rw [getReadingAfterDate_eq_none_iff] at hres
    exact absurd hslt (hres s hsm hscar)
  | some m =>
    obtain ⟨hmm, hmcar, hmlt, hmmax⟩ := getReadingAfterDate_nearest_of_eq_some hres
    have h1 : s.date.key ≤ m.date.key := hsmax m hmm hmcar hmlt
    have h2 : m.date.key ≤ s.date.key := hmmax s hsm hscar hslt
    rw [hu m hmm s hsm hmcar hscar (Nat.le_antisymm h2 h1)]

/-- C1, as stated, is falsified by a duplicate date: in `exHistDup` the
candidate (car-1, 2025-06-30, 40000) has predecessor `exR1` (10000) and
successor `exR2` (78000), its value lies within [10000, 78000], yet
`validateReadingInSequence` rejects it (duplicate-date check), because a third
reading sits exactly on the proposed date. -/
theorem validate_between_iff_counterexample :
    datesUnique exHistDup "car-1" ∧
    isNearestBefore exHistDup "car-1" ⟨2025, 6, 30⟩ exR1 ∧
    isNearestAfter exHistDup "car-1" ⟨2025, 6, 30⟩ exR2 ∧
    (exR1.reading ≤ 40000 ∧ (40000 : Int) ≤ exR2.reading) ∧
    (validateReadingInSequence exHistDup "car-1" ⟨2025, 6, 30⟩ 40000 none).isValid = false := by
  decide

/-- C1 (amended: additionally assuming no existing reading of the vehicle sits
exactly on the proposed date): for a candidate whose proposed date lies
strictly between the dates of the vehicle's predecessor (latest reading
strictly before) and successor (earliest reading strictly after),
`validateReadingInSequence` accepts iff
`predecessor.reading ≤ value ≤ successor.reading`; equality at either bound is
accepted. -/
theorem validate_between_iff
    {readings : List OdometerReading} {carId : String} {d : Date} {v : Int}
    {p s : OdometerReading}
    (hu : datesUnique readings carId)
    (hnd : noReadingAt readings carId d)
    (hp : isNearestBefore readings carId d p)
    (hs : isNearestAfter readings carId d s) :
    (validateReadingInSequence readings carId d v none).isValid = true ↔
      (p.reading ≤ v ∧ v ≤ s.reading) := by
  have hprev := getReadingBeforeDate_of_nearest hu hp
  have hnext := getReadingAfterDate_of_nearest hu hs
  have hfind : readings.find? (fun r => r.carId == carId && r.date == d) = none := by
    rw [List.find?_eq_none]
    intro x hx hpred
    simp only [Bool.and_eq_true, beq_iff_eq] at hpred
    exact hnd x hx hpred.1 hpred.2
  unfold validateReadingInSequence filterExclude
  simp only [hfind, hprev, hnext, Option.isSome_none, Bool.false_eq_true, if_false]
  split_ifs with h1 h2 <;> simp <;> omega

/-- Witness for `validate_between_iff` on spec Scenario 1: inserting
(car-1, 2025-06-30, 40000) between 10000 and 78000. -/
theorem validate_between_iff_witness :
    (validateReadingInSequence exHist "car-1" ⟨2025, 6, 30⟩ 40000 none).isValid = true ↔
      (exR1.reading ≤ 40000 ∧ (40000 : Int) ≤ exR2.reading) :=
  @validate_between_iff exHist "car-1" ⟨2025, 6, 30⟩ 40000 exR1 exR2
    (by decide) (by decide) (by decide) (by decide)

/-- C2: whenever some non-excluded reading of the vehicle sits exactly on the
candidate's date, `validateReadingInSequence` rejects with the duplicate-date
error and without either range bound, regardless of the candidate's value. -/
theorem validate_duplicate_date
    {readings : List OdometerReading} {carId : String} {d : Date} {v : Int}
    {excl : Option String} {r0 : OdometerReading}
    (hr : r0 ∈ filterExclude readings excl) (hcar : r0.carId = carId)
    (hdate : r0.date = d) :
    validateReadingInSequence readings carId d v excl =
      { isValid := false, error := some (duplicateError d)
        minValue := none, maxValue := none } := by
  have hfind :
      ((filterExclude readings excl).find?
        (fun r => r.carId == carId && r.date == d)).isSome = true := by
    rw [List.find?_isSome]
    exact ⟨r0, hr, by simp [hcar, hdate]⟩
  unfold validateReadingInSequence
  simp only [hfind, if_true]

/-- Witness for `validate_duplicate_date` on spec Scenario 5: candidate
(car-1, 2025-06-30, 999999) whose value also exceeds the successor, yet the
rejection is the duplicate-date one, not a range error. -/
theorem validate_duplicate_date_witness :
    validateReadingInSequence exHistDup "car-1" ⟨2025, 6, 30⟩ 999999 none =
      { isValid := false, error := some (duplicateError ⟨2025, 6, 30⟩)
        minValue := none, maxValue := none } :=
  @validate_duplicate_date exHistDup "car-1" ⟨2025, 6, 30⟩ 999999 none exRmid
    (by decide) (by decide) (by decide)

/-- C3: a candidate below its nearest earlier reading is rejected with
`minValue` equal to that (nearest, not globally latest) reading's value and an
error string naming that value and its date; symmetrically, a candidate above
its nearest later reading (while not below its predecessor) is rejected with
`maxValue` equal to that reading's value and an error naming it. -/
theorem validate_bound_errors
    {readings : List OdometerReading} {carId : String} {d : Date} {v : Int}
    {p s : OdometerReading}
    (hu : datesUnique readings carId)
    (hnd : noReadingAt readings carId d) :
    (isNearestBefore readings carId d p → v < p.reading →
      validateReadingInSequence readings carId d v none =
        { isValid := false, error := some (belowError p)
          minValue := some p.reading, maxValue := none }) ∧
    (isNearestAfter readings carId d s →
      (∀ q, isNearestBefore readings carId d q → q.reading ≤ v) →
      s.reading < v →
      validateReadingInSequence readings carId d v none =
        { isValid := false, error := some (aboveError s)
          minValue := none, maxValue := some s.reading }) := by
  have hfind : readings.find? (fun r => r.carId == carId && r.date == d) = none := by
    rw [List.find?_eq_none]
    intro x hx hpred
    simp only [Bool.and_eq_true, beq_iff_eq] at hpred
    exact hnd x hx hpred.1 hpred.2
  constructor
  · intro hp hlt
    have hprev := getReadingBeforeDate_of_nearest hu hp
    unfold validateReadingInSequence filterExclude
    simp only [hfind, hprev, Option.isSome_none, Bool.false_eq_true, if_false]
    simp [hlt]
  · intro hs hple hgt
    have hnext := getReadingAfterDate_of_nearest hu hs
    unfold validateReadingInSequence filterExclude
    simp only [hfind, hnext, Option.isSome_none, Bool.false_eq_true, if_false]
    cases hprev : getReadingBeforeDate readings carId d with
    | none =>
      simp [hgt]
    | some q =>
      have hq : q.reading ≤ v :=
        hple q (getReadingBeforeDate_nearest_of_eq_some hprev)
      simp [hq, Int.not_lt.mpr hq, hgt]

/-- Witness for `validate_bound_errors` on spec Scenario 1: candidate
(car-1, 2025-06-30, 9000) is below predecessor 10000 of Jan 2025 and is
rejected naming exactly that bound. -/
theorem validate_bound_errors_witness :
    validateReadingInSequence exHist "car-1" ⟨2025, 6, 30⟩ 9000 none =
      { isValid := false, error := some (belowError exR1)
        minValue := some exR1.reading, maxValue := none } :=
  (@validate_bound_errors exHist "car-1" ⟨2025, 6, 30⟩ 9000 exR1 exR2
    (by decide) (by decide)).1 (by decide) (by decide)

theorem mem_carReadingsSorted {readings : List OdometerReading} {carId : String}
    {x : OdometerReading} :
    x ∈ carReadingsSorted readings carId ↔ x ∈ readings ∧ x.carId = carId := by
  unfold carReadingsSorted
  rw [(List.perm_insertionSort dateAscR _).mem_iff, List.mem_filter]
  simp only [beq_iff_eq]

theorem sorted_carReadingsSorted {readings : List OdometerReading} {carId : String} :
    List.Sorted dateAscR (carReadingsSorted readings carId) :=
  List.sorted_insertionSort dateAscR _

theorem mem_of_getLast?_eq_some {α : Type} {l : List α} {b : α}
    (h : l.getLast? = some b) : b ∈ l := by
  rw [List.getLast?_eq_getElem?] at h
  obtain ⟨hlt, hEq⟩ := List.getElem?_eq_some_iff.mp h
  exact hEq ▸ List.getElem_mem hlt

theorem firstMileage_nonneg (car : Option Car) (cur : OdometerReading) :
    0 ≤ firstMileage car cur := by
  unfold firstMileage
  repeat' split
  all_goals first
  | exact Int.le_refl 0
  | exact le_max_left 0 _

theorem monthlyRest_mileage_nonneg {readings : List OdometerReading} {carId : String}
    (hinv : carNonDecreasing readings carId) :
    ∀ (prev : OdometerReading) (rest : List OdometerReading),
      List.Sorted dateAscR (prev :: rest) →
      (∀ x ∈ prev :: rest, x ∈ readings ∧ x.carId = carId) →
      ∀ m ∈ monthlyRest prev rest, 0 ≤ m.mileage := by
  intro prev rest
  induction rest generalizing prev with
  | nil =>
    intro _ _ m hm
    simp [monthlyRest] at hm
  | cons cur rest' ih =>
    intro hsorted hall m hm
    rw [monthlyRest] at hm
    rcases List.mem_cons.mp hm with rfl | hm'
    · show 0 ≤ cur.reading - prev.reading
      have hrel : dateAscR prev cur :=
        (List.sorted_cons.mp hsorted).1 cur (List.mem_cons_self _ _)
      have hprev := hall prev (List.mem_cons_self _ _)
      have hcur := hall cur (List.mem_cons.mpr (Or.inr (List.mem_cons_self _ _)))
      have hle := hinv prev hprev.1 cur hcur.1 hprev.2 hcur.2 hrel
      omega
    · exact ih cur (List.sorted_cons.mp hsorted).2
        (fun x hx => hall x (List.mem_cons.mpr (Or.inr hx))) m hm'

theorem inYearB_bounds {year : Nat} {r : OdometerReading}
    (h : inYearB year r = true) :
    Date.key ⟨year, 1, 1⟩ ≤ r.date.key ∧ r.date.key ≤ Date.key ⟨year, 12, 31⟩ := by
  unfold inYearB at h
  simp only [Bool.and_eq_true, decide_eq_true_eq] at h
  exact h

theorem ytdBaseline_nonneg (car : Option Car) (year : Nat) (y0 : OdometerReading) :
    0 ≤ ytdBaseline car year y0 := by
  unfold ytdBaseline
  repeat' split
  all_goals first
  | exact Int.le_refl 0
  | exact le_max_left 0 _

theorem calculateYTDMileage_nonneg {readings : List OdometerReading}
    {carId : String} {year : Nat} {car : Option Car}
    (hinv : carNonDecreasing readings carId) :
    0 ≤ calculateYTDMileage readings carId year car := by
  simp only [calculateYTDMileage]
  split
  · exact Int.le_refl 0
  split
  · exact Int.le_refl 0
  next y0 ys hfilter =>
    split
    · exact ytdBaseline_nonneg car year y0
    next hcond =>
      have hsortedFilt : List.Sorted dateAscR (y0 :: ys) := by
        rw [← hfilter]
        exact List.Pairwise.filter _ sorted_carReadingsSorted
      have hsubS : ∀ x ∈ y0 :: ys,
          x ∈ readings ∧ x.carId = carId ∧ inYearB year x = true := by
        intro x hx
        rw [← hfilter, List.mem_filter] at hx
        obtain ⟨hx1, hx2⟩ := hx
        obtain ⟨hx3, hx4⟩ := mem_carReadingsSorted.mp hx1
        exact ⟨hx3, hx4, hx2⟩
      have hlastMem := hsubS (ys.getLastD y0) (List.getLastD_mem_cons ys y0)
      cases hlb : ((carReadingsSorted readings carId).filter
          (fun r => decide (r.date.key < Date.key ⟨year, 1, 1⟩))).getLast? with
      | none =>
        simp only [hlb, Option.getD_none]
        have hy0 := hsubS y0 (List.mem_cons_self _ _)
        have hkey : y0.date.key ≤ (ys.getLastD y0).date.key := by
          rcases List.mem_cons.mp (List.getLastD_mem_cons ys y0) with hEq | hmem
          · rw [hEq]
          · exact (List.sorted_cons.mp hsortedFilt).1 _ hmem
        have := hinv y0 hy0.1 (ys.getLastD y0) hlastMem.1 hy0.2.1 hlastMem.2.1 hkey
        omega
      | some b =>
        simp only [hlb, Option.getD_some]
        have hbmem : b ∈ (carReadingsSorted readings carId).filter
            (fun r => decide (r.date.key < Date.key ⟨year, 1, 1⟩)) :=
          mem_of_getLast?_eq_some hlb
        rw [List.mem_filter] at hbmem
        obtain ⟨hb1, hb2⟩ := hbmem
        simp only [decide_eq_true_eq] at hb2
        obtain ⟨hb3, hb4⟩ := mem_carReadingsSorted.mp hb1
        have hlastLow := (inYearB_bounds hlastMem.2.2).1
        have hkey : b.date.key ≤ (ys.getLastD y0).date.key :=
          Nat.le_trans (Nat.le_of_lt hb2) hlastLow
        have := hinv b hb3 (ys.getLastD y0) hlastMem.1 hb4 hlastMem.2.1 hkey
        omega

/-- C4, as stated, fails: for the invariant-violating history `exBad`
(100 then 40), `calculateMonthlyMileage` emits the negative delta -60 and
`calculateYTDMileage` returns -60; the code clamps to 0 only in the
baseline branches, not for consecutive-reading deltas. -/
theorem aggregator_nonneg_counterexample :
    ((calculateMonthlyMileage exBad "car-1" none).map (fun m => m.mileage)) = [0, -60] ∧
    calculateYTDMileage exBad "car-1" 2024 none = -60 ∧ (-60 : Int) < 0 := by
  decide

/-- C4 (amended): the aggregator never produces a negative delta PROVIDED the
per-vehicle history satisfies the non-decreasing-by-date invariant that the
validator enforces at write time; the `Math.max(0, _)` substitution exists only
in the two baseline branches, and a history violating the invariant (e.g.
imported without validation) does produce negative deltas. -/
theorem aggregator_nonneg {readings : List OdometerReading} {carId : String}
    {year : Nat} {car : Option Car}
    (hinv : carNonDecreasing readings carId) :
    (∀ m ∈ calculateMonthlyMileage readings carId car, 0 ≤ m.mileage) ∧
    0 ≤ calculateYTDMileage readings carId year car := by
  constructor
  · intro m hm
    unfold calculateMonthlyMileage at hm
    cases hS : carReadingsSorted readings carId with
    | nil =>
      rw [hS] at hm
      simp at hm
    | cons first rest =>
      rw [hS] at hm
      rcases List.mem_cons.mp hm with rfl | hm'
      · exact firstMileage_nonneg car first
      · refine monthlyRest_mileage_nonneg hinv first rest ?_ ?_ m hm'
        · rw [← hS]
          exact sorted_carReadingsSorted
        · intro x hx
          rw [← hS] at hx
          exact mem_carReadingsSorted.mp hx
  · exact calculateYTDMileage_nonneg hinv

/-- Witness for `aggregator_nonneg` on the invariant-respecting Scenario 1
history `exHist`. -/
theorem aggregator_nonneg_witness :
    (∀ m ∈ calculateMonthlyMileage exHist "car-1" none, 0 ≤ m.mileage) ∧
    0 ≤ calculateYTDMileage exHist "car-1" 2025 none :=
  @aggregator_nonneg exHist "car-1" 2025 none (by decide)

theorem monthlyRest_get (prev : OdometerReading) (rest : List OdometerReading)
    (i : Nat) (h : i < rest.length) :
    ((monthlyRest prev rest)[i]?).map (fun m => m.mileage) =
      some ((rest.get ⟨i, h⟩).reading -
        ((prev :: rest).get ⟨i, Nat.lt_succ_of_lt h⟩).reading) := by
  induction rest generalizing prev i with
  | nil => exact absurd h (Nat.not_lt_zero i)
  | cons cur rest' ih =>
    cases i with
    | zero => simp [monthlyRest, mkMonthly]
    | succ j =>
      simpa [monthlyRest] using ih cur j (Nat.lt_of_succ_lt_succ h)

theorem firstMileage_eq_spec (car : Option Car) (cur : OdometerReading) :
    firstMileage car cur =
      (match car with
        | some c =>
          match c.initialOdometer, c.trackingStartDate with
          | some io, some ts =>
            if ts.year = cur.date.year ∧ ts.month = cur.date.month then
              max 0 (cur.reading - io)
            else 0
          | _, _ => 0
        | none => 0) := by
  unfold firstMileage
  cases car with
  | none => rfl
  | some c =>
    obtain ⟨cid, io, ts⟩ := c
    cases io with
    | none => rfl
    | some io =>
      cases ts with
      | none => rfl
      | some ts =>
        show (if ts.ym == cur.date.ym then max 0 (cur.reading - io) else 0) =
          (if ts.year = cur.date.year ∧ ts.month = cur.date.month then
            max 0 (cur.reading - io) else 0)
        have hiff : (ts.ym == cur.date.ym) = true ↔
            (ts.year = cur.date.year ∧ ts.month = cur.date.month) := by
          unfold Date.ym
          rw [beq_iff_eq, Ym.mk.injEq]
        by_cases h : ts.year = cur.date.year ∧ ts.month = cur.date.month
        · rw [if_pos (hiff.mpr h), if_pos h]
        · rw [if_neg (fun hb => h (hiff.mp hb)), if_neg h]

/-- C5: when the car's sorted history is `first :: rest`, the first emitted
period's delta is `max 0 (first.reading - initialOdometer)` if the car has the
baseline pair and the tracking-start date is in the same month AND year as the
first reading, and 0 otherwise; every later period's delta is
`current.reading - previous.reading`. -/
theorem monthly_first_and_deltas {readings : List OdometerReading} {carId : String}
    {car : Option Car} {first : OdometerReading} {rest : List OdometerReading}
    (hS : carReadingsSorted readings carId = first :: rest) :
    (((calculateMonthlyMileage readings carId car).head?).map (fun m => m.mileage) =
      some (match car with
        | some c =>
          match c.initialOdometer, c.trackingStartDate with
          | some io, some ts =>
            if ts.year = first.date.year ∧ ts.month = first.date.month then
              max 0 (first.reading - io)
            else 0
          | _, _ => 0
        | none => 0)) ∧
    ∀ i : Nat, ∀ h : i < rest.length,
      (((calculateMonthlyMileage readings carId car)[i + 1]?).map (fun m => m.mileage)) =
        some ((rest.get ⟨i, h⟩).reading -
          ((first :: rest).get ⟨i, Nat.lt_succ_of_lt h⟩).reading) := by
  unfold calculateMonthlyMileage
  rw [hS]
  constructor
  · rw [List.head?_cons]
    show some (firstMileage car first) = _
    exact congrArg some (firstMileage_eq_spec car first)
  · intro i h
    have := monthlyRest_get first rest i h
    simpa using this

/-- Witness for `monthly_first_and_deltas`: `exHist` with the baseline car
`exCarJan` whose tracking start (2025-01-15) shares the month of the first
reading (2025-01-31): first delta is `max 0 (10000 - 9500)`, second delta is
`78000 - 10000`. -/
theorem monthly_first_and_deltas_witness :
    (((calculateMonthlyMileage exHist "car-1" exCarJan).head?).map (fun m => m.mileage) =
      some (match exCarJan with
        | some c =>
          match c.initialOdometer, c.trackingStartDate with
          | some io, some ts =>
            if ts.year = exR1.date.year ∧ ts.month = exR1.date.month then
              max 0 (exR1.reading - io)
            else 0
          | _, _ => 0
        | none => 0)) ∧
    ∀ i : Nat, ∀ h : i < [exR2].length,
      (((calculateMonthlyMileage exHist "car-1" exCarJan)[i + 1]?).map (fun m => m.mileage)) =
        some (([exR2].get ⟨i, h⟩).reading -
          ((exR1 :: [exR2]).get ⟨i, Nat.lt_succ_of_lt h⟩).reading) :=
  @monthly_first_and_deltas exHist "car-1" exCarJan exR1 [exR2] (by decide)

theorem calculateYTDMileage_eval {readings : List OdometerReading} {carId : String}
    {year : Nat} {car : Option Car} {first : OdometerReading}
    {rest : List OdometerReading}
    (hfiltYear : (carReadingsSorted readings carId).filter (inYearB year) = first :: rest)
    (hlb : (carReadingsSorted readings carId).filter
      (fun r => decide (r.date.key < Date.key ⟨year, 1, 1⟩)) = []) :
    calculateYTDMileage readings carId year car =
      if rest.isEmpty then ytdBaseline car year first
      else (rest.getLastD first).reading - first.reading := by
  have hSne : carReadingsSorted readings carId ≠ [] := by
    intro h
    rw [h] at hfiltYear
    simp at hfiltYear
  simp only [calculateYTDMileage]
  split
  · next hemp => exact absurd (List.isEmpty_iff.mp hemp) hSne
  · split
    · next hnil =>
      rw [hfiltYear] at hnil
      simp at hnil
    · next y0 ys heq =>
      rw [hfiltYear] at heq
      injection heq with h1 h2
      subst h1
      subst h2
      rw [hlb]
      simp only [show (([] : List OdometerReading).getLast?) = none from rfl,
        Option.isNone_none, Bool.and_true, Option.getD_none]

theorem ytdBaseline_eq_spec (car : Option Car) (year : Nat) (y0 : OdometerReading) :
    ytdBaseline car year y0 =
      (match car with
        | some c =>
          match c.initialOdometer, c.trackingStartDate with
          | some io, some ts =>
            if ts.year = year then max 0 (y0.reading - io) else 0
          | _, _ => 0
        | none => 0) := by
  unfold ytdBaseline
  cases car with
  | none => rfl
  | some c =>
    obtain ⟨cid, io, ts⟩ := c
    cases io with
    | none => rfl
    | some io =>
      cases ts with
      | none => rfl
      | some ts =>
        show (if ts.year == year then max 0 (y0.reading - io) else 0) =
          (if ts.year = year then max 0 (y0.reading - io) else 0)
        by_cases h : ts.year = year
        · rw [if_pos (by simpa using h), if_pos h]
        · rw [if_neg (by simpa using h), if_neg h]

/-- C6: when exactly one reading of the vehicle falls within `year` and none is
dated before the year's start, `calculateYTDMileage` returns
`max 0 (reading - initialOdometer)` if the car has the baseline pair with a
tracking-start year equal to the queried year, and 0 otherwise — in particular
0 whenever the tracking-start year differs, even though a baseline exists. -/
theorem ytd_single_reading {readings : List OdometerReading} {carId : String}
    {year : Nat} {car : Option Car} {y0 : OdometerReading}
    (hy0 : y0 ∈ readings ∧ y0.carId = carId ∧ inYearB year y0 = true)
    (hcount : (readings.filter (fun r => r.carId == carId && inYearB year r)).length = 1)
    (hnb : ∀ r ∈ readings, r.carId = carId → ¬ r.date.key < Date.key ⟨year, 1, 1⟩) :
    calculateYTDMileage readings carId year car =
      (match car with
        | some c =>
          match c.initialOdometer, c.trackingStartDate with
          | some io, some ts =>
            if ts.year = year then max 0 (y0.reading - io) else 0
          | _, _ => 0
        | none => 0) := by
  have hy0f : y0 ∈ readings.filter (fun r => r.carId == carId && inYearB year r) :=
    List.mem_filter.mpr ⟨hy0.1, by simp [hy0.2.1, hy0.2.2]⟩
  obtain ⟨a, ha⟩ := List.length_eq_one.mp hcount
  rw [ha] at hy0f
  have hay : a = y0 := by
    rcases List.mem_singleton.mp hy0f with h
    exact h.symm
  subst hay
  have hstep1 : ((readings.filter (fun r => r.carId == carId)).insertionSort
      dateAscR).filter (inYearB year) = [a] := by
    have hperm := (List.perm_insertionSort dateAscR
      (readings.filter (fun r => r.carId == carId))).filter (inYearB year)
    rw [List.filter_filter] at hperm
    have hcomm : readings.filter (fun a => inYearB year a && (a.carId == carId)) =
        readings.filter (fun r => r.carId == carId && inYearB year r) :=
      List.filter_congr (fun x _ => Bool.and_comm _ _)
    rw [hcomm, ha] at hperm
    exact List.perm_singleton.mp hperm
  have hfiltYear : (carReadingsSorted readings carId).filter (inYearB year) = [a] := by
    unfold carReadingsSorted
    rw [hstep1]
  have hlb : (carReadingsSorted readings carId).filter
      (fun r => decide (r.date.key < Date.key ⟨year, 1, 1⟩)) = [] := by
    rw [List.filter_eq_nil_iff]
    intro x hx
    obtain ⟨hx1, hx2⟩ := mem_carReadingsSorted.mp hx
    simp only [decide_eq_true_eq]
    exact hnb x hx1 hx2
  rw [calculateYTDMileage_eval hfiltYear hlb]
  simp only [List.isEmpty_nil, if_true]
  exact ytdBaseline_eq_spec car year a

/-- Witness for `ytd_single_reading` on spec Scenario 2: single reading 45800
in 2026 with baseline 45000 starting 2026-01-01. -/
theorem ytd_single_reading_witness :
    calculateYTDMileage exSingle "car-1" 2026 exCarB =
      (match exCarB with
        | some c =>
          match c.initialOdometer, c.trackingStartDate with
          | some io, some ts =>
            if ts.year = 2026 then
              max 0 ((⟨"1", "car-1", ⟨2026, 1, 31⟩, 45800⟩ : OdometerReading).reading - io)
            else 0
          | _, _ => 0
        | none => 0) :=
  @ytd_single_reading exSingle "car-1" 2026 exCarB ⟨"1", "car-1", ⟨2026, 1, 31⟩, 45800⟩
    (by decide) (by decide) (by decide)

theorem monthlyRest_sum (prev : OdometerReading) (rest : List OdometerReading) :
    ((monthlyRest prev rest).map (fun m => m.mileage)).sum =
      (rest.getLastD prev).reading - prev.reading := by
  induction rest generalizing prev with
  | nil => simp [monthlyRest]
  | cons cur rest' ih =>
    simp only [monthlyRest, mkMonthly, List.map_cons, List.sum_cons,
      List.getLastD_cons, ih cur]
    omega

theorem firstMileage_of_no_baseline {car : Option Car} {cur : OdometerReading}
    (hnb : hasBaseline car = false) : firstMileage car cur = 0 := by
  unfold firstMileage
  cases car with
  | none => rfl
  | some c =>
    obtain ⟨cid, io, ts⟩ := c
    cases io with
    | none => rfl
    | some io =>
      cases ts with
      | none => rfl
      | some ts => simp [hasBaseline] at hnb

theorem ytdBaseline_of_no_baseline {car : Option Car} {year : Nat}
    {y0 : OdometerReading} (hnb : hasBaseline car = false) :
    ytdBaseline car year y0 = 0 := by
  unfold ytdBaseline
  cases car with
  | none => rfl
  | some c =>
    obtain ⟨cid, io, ts⟩ := c
    cases io with
    | none => rfl
    | some io =>
      cases ts with
      | none => rfl
      | some ts => simp [hasBaseline] at hnb

/-- C7: for a vehicle history confined to a single calendar year and a car
without the baseline pair, the sum of the deltas emitted by
`calculateMonthlyMileage` equals `calculateYTDMileage` for that year. -/
theorem monthly_sum_eq_ytd {readings : List OdometerReading} {carId : String}
    {year : Nat} {car : Option Car}
    (hnb : hasBaseline car = false)
    (hin : ∀ r ∈ readings, r.carId = carId → inYearB year r = true) :
    ((calculateMonthlyMileage readings carId car).map (fun m => m.mileage)).sum =
      calculateYTDMileage readings carId year car := by
  cases hS : carReadingsSorted readings carId with
  | nil =>
    unfold calculateMonthlyMileage
    simp only [calculateYTDMileage, hS]
    simp
  | cons first rest =>
    have hfiltYear : (carReadingsSorted readings carId).filter (inYearB year) =
        first :: rest := by
      rw [hS]
      apply List.filter_eq_self.mpr
      intro a ha
      have hm : a ∈ carReadingsSorted readings carId := by
        rw [hS]
        exact ha
      obtain ⟨h1, h2⟩ := mem_carReadingsSorted.mp hm
      exact hin a h1 h2
    have hlb : (carReadingsSorted readings carId).filter
        (fun r => decide (r.date.key < Date.key ⟨year, 1, 1⟩)) = [] := by
      rw [List.filter_eq_nil_iff]
      intro x hx
      obtain ⟨hx1, hx2⟩ := mem_carReadingsSorted.mp hx
      have hlow := (inYearB_bounds (hin x hx1 hx2)).1
      simp only [decide_eq_true_eq]
      omega
    rw [calculateYTDMileage_eval hfiltYear hlb]
    unfold calculateMonthlyMileage
    rw [hS]
    simp only [List.map_cons, List.sum_cons, monthlyRest_sum,
      firstMileage_of_no_baseline hnb]
    show (0 : Int) + _ = _
    cases rest with
    | nil =>
      simp [ytdBaseline_of_no_baseline hnb]
    | cons r2 rest'' =>
      rw [if_neg (by simp : ¬((r2 :: rest'').isEmpty = true))]
      omega

/-- Witness for `monthly_sum_eq_ytd` on `ex2024`: deltas 0 + 2000 sum to the
year-to-date 2000 for 2024. -/
theorem monthly_sum_eq_ytd_witness :
    ((calculateMonthlyMileage ex2024 "car-1" none).map (fun m => m.mileage)).sum =
      calculateYTDMileage ex2024 "car-1" 2024 none :=
  @monthly_sum_eq_ytd ex2024 "car-1" 2024 none (by decide) (by decide)

theorem fillMonthlyMileageGaps_getElem? (data : List MonthlyMileage) (n : Nat)
    (nowYm : Ym) (i : Nat) (hi : i < n) :
    (fillMonthlyMileageGaps data n nowYm)[i]? =
      some (match dataMapLookup data (Ym.ofIdx (nowYm.idx - (n - 1) + i)) with
        | some existing => existing
        | none => synthMonthly (Ym.ofIdx (nowYm.idx - (n - 1) + i))) := by
  simp only [fillMonthlyMileageGaps]
  rw [List.getElem?_map, List.getElem?_range hi]
  rfl

theorem fillMonthlyMileageGaps_month (data : List MonthlyMileage) (n : Nat)
    (nowYm : Ym) (i : Nat) (hi : i < n) :
    ((fillMonthlyMileageGaps data n nowYm)[i]?).map (fun m => m.month) =
      some (Ym.ofIdx (nowYm.idx - (n - 1) + i)) := by
  rw [fillMonthlyMileageGaps_getElem? data n nowYm i hi]
  cases hlook : dataMapLookup data (Ym.ofIdx (nowYm.idx - (n - 1) + i)) with
  | none => simp [synthMonthly]
  | some r0 =>
    unfold dataMapLookup at hlook
    have hmem := mem_of_getLast?_eq_some hlook
    rw [List.mem_filter] at hmem
    have hkey := hmem.2
    simp only [beq_iff_eq] at hkey
    simp [hkey]

theorem Ym.ofIdx_idx {m : Ym} (h1 : 1 ≤ m.month) (h2 : m.month ≤ 12) :
    Ym.ofIdx m.idx = m := by
  obtain ⟨y, mo⟩ := m
  simp only [Ym.idx, Ym.ofIdx, Ym.mk.injEq] at h1 h2 ⊢
  omega

/-- C8: `fillMonthlyMileageGaps` returns exactly `windowSize` periods whose
month keys walk `windowSize` consecutive calendar months ending at the current
month; a month present in the input keeps its input record (the one the Map
holds for that key), and an absent month is synthesized with mileage 0,
reading 0 and previousReading none.  Hypotheses: the current month is a valid
calendar month and the window does not underflow month zero (always true for
real clock values). -/
theorem fillGaps_spec (data : List MonthlyMileage) (n : Nat) (nowYm : Ym)
    (hfit : n - 1 ≤ nowYm.idx) (hvalid : 1 ≤ nowYm.month ∧ nowYm.month ≤ 12) :
    (fillMonthlyMileageGaps data n nowYm).length = n ∧
    (∀ i, i < n →
      (fillMonthlyMileageGaps data n nowYm)[i]? =
        some (match dataMapLookup data (Ym.ofIdx (nowYm.idx - (n - 1) + i)) with
          | some existing => existing
          | none => synthMonthly (Ym.ofIdx (nowYm.idx - (n - 1) + i)))) ∧
    (∀ i, i < n →
      ((fillMonthlyMileageGaps data n nowYm)[i]?).map (fun m => m.month) =
        some (Ym.ofIdx (nowYm.idx - (n - 1) + i))) ∧
    (0 < n →
      ((fillMonthlyMileageGaps data n nowYm)[n - 1]?).map (fun m => m.month) =
        some nowYm) := by
  refine ⟨?_, ?_, ?_, ?_⟩
  · simp [fillMonthlyMileageGaps]
  · intro i hi
    exact fillMonthlyMileageGaps_getElem? data n nowYm i hi
  · intro i hi
    exact fillMonthlyMileageGaps_month data n nowYm i hi
  · intro hn
    rw [fillMonthlyMileageGaps_month data n nowYm (n - 1) (by omega)]
    rw [Nat.sub_add_cancel hfit, Ym.ofIdx_idx hvalid.1 hvalid.2]

/-- Witness for `fillGaps_spec` on spec Scenario 4: six months ending June
2024 over data holding only March and June; the window has length 6 and ends
at June 2024. -/
theorem fillGaps_spec_witness :
    (fillMonthlyMileageGaps exFillData 6 ⟨2024, 6⟩).length = 6 ∧
    ((fillMonthlyMileageGaps exFillData 6 ⟨2024, 6⟩)[5]?).map (fun m => m.month) =
      some ⟨2024, 6⟩ :=
  ⟨(fillGaps_spec exFillData 6 ⟨2024, 6⟩ (by decide) (by decide)).1,
   (fillGaps_spec exFillData 6 ⟨2024, 6⟩ (by decide) (by decide)).2.2.2 (by decide)⟩

theorem monthlyRest_length (prev : OdometerReading) (rest : List OdometerReading) :
    (monthlyRest prev rest).length = rest.length := by
  induction rest generalizing prev with
  | nil => rfl
  | cons cur rest' ih => simp [monthlyRest, ih cur]

theorem monthlyRest_month (prev : OdometerReading) (rest : List OdometerReading)
    (i : Nat) :
    ((monthlyRest prev rest)[i]?).map (fun m => m.month) =
      (rest[i]?).map (fun r => r.date.ym) := by
  induction rest generalizing prev i with
  | nil => simp [monthlyRest]
  | cons cur rest' ih =>
    cases i with
    | zero => simp [monthlyRest, mkMonthly]
    | succ j => simpa [monthlyRest] using ih cur j

theorem calculateMonthlyMileage_length (readings : List OdometerReading)
    (carId : String) (car : Option Car) :
    (calculateMonthlyMileage readings carId car).length =
      (carReadingsSorted readings carId).length := by
  unfold calculateMonthlyMileage
  cases hS : carReadingsSorted readings carId with
  | nil => rfl
  | cons first rest => simp [monthlyRest_length]

theorem calculateMonthlyMileage_month (readings : List OdometerReading)
    (carId : String) (car : Option Car) (i : Nat) :
    ((calculateMonthlyMileage readings carId car)[i]?).map (fun m => m.month) =
      ((carReadingsSorted readings carId)[i]?).map (fun r => r.date.ym) := by
  unfold calculateMonthlyMileage
  cases hS : carReadingsSorted readings carId with
  | nil => simp
  | cons first rest =>
    cases i with
    | zero => simp [mkMonthly]
    | succ j =>
      simp only [List.getElem?_cons_succ]
      exact monthlyRest_month first rest j

theorem filter_getLast?_of_last {α : Type} {p : α → Bool} {l : List α} {j : Nat}
    (hj : j < l.length) (hpj : p l[j] = true)
    (hlast : ∀ k, (hk : k < l.length) → j < k → p l[k] = false) :
    (l.filter p).getLast? = some l[j] := by
  induction l generalizing j with
  | nil => exact absurd hj (Nat.not_lt_zero j)
  | cons a t ih =>
    cases j with
    | zero =>
      have htnil : t.filter p = [] := by
        rw [List.filter_eq_nil_iff]
        intro x hx
        obtain ⟨k, hk, hkx⟩ := List.mem_iff_getElem.mp hx
        have hfk := hlast (k + 1) (by simpa using Nat.succ_lt_succ hk) (Nat.succ_pos k)
        rw [List.getElem_cons_succ] at hfk
        rw [hkx] at hfk
        simp [hfk]
      have hpa0 : p a = true := by simpa using hpj
      rw [List.filter_cons_of_pos hpa0, htnil]
      simp
    | succ j' =>
      have hj' : j' < t.length := Nat.lt_of_succ_lt_succ hj
      have hpj' : p t[j'] = true := by simpa using hpj
      have hlast' : ∀ k, (hk : k < t.length) → j' < k → p t[k] = false := by
        intro k hk hjk
        have hfk := hlast (k + 1) (by simpa using Nat.succ_lt_succ hk)
          (Nat.succ_lt_succ hjk)
        simpa using hfk
      have ihe := ih hj' hpj' hlast'
      cases hpa : p a with
      | false =>
        rw [List.filter_cons_of_neg (by simp [hpa]), ihe]
        simp
      | true =>
        rw [List.filter_cons_of_pos hpa]
        cases hft : t.filter p with
        | nil =>
          rw [hft] at ihe
          exact absurd ihe (by simp)
        | cons b l' =>
          rw [List.getLast?_cons_cons, ← hft, ihe]
          simp

theorem dataMapLookup_of_last {data : List MonthlyMileage} {key : Ym} {j : Nat}
    (hj : j < data.length) (hkey : data[j].month = key)
    (hlast : ∀ k, (hk : k < data.length) → j < k → data[k].month ≠ key) :
    dataMapLookup data key = data[j]? := by
  have h2 : ∀ k, (hk : k < data.length) → j < k →
      (fun m => m.month == key) data[k] = false := by
    intro k hk hjk
    simp only [beq_eq_false_iff_ne]
    exact hlast k hk hjk
  unfold dataMapLookup
  rw [filter_getLast?_of_last hj (by simp [hkey]) h2, List.getElem?_eq_getElem hj]

/-- C10: with two same-month readings in the sorted history (positions
`i < j`), `calculateMonthlyMileage` still emits one record per reading (same
length), so the records at `i` and `j` carry the same month key; and when `j`
is the last record with that key, the gap-filled series places exactly record
`j` at that month's window slot — record `i`'s delta is dropped, not summed. -/
theorem monthly_same_month_collision {readings : List OdometerReading}
    {carId : String} {car : Option Car} {i j : Nat} {mkey : Ym}
    (hij : i < j)
    (hsi : ((carReadingsSorted readings carId)[i]?).map (fun r => r.date.ym) = some mkey)
    (hsj : ((carReadingsSorted readings carId)[j]?).map (fun r => r.date.ym) = some mkey) :
    (calculateMonthlyMileage readings carId car).length =
      (carReadingsSorted readings carId).length ∧
    ((calculateMonthlyMileage readings carId car)[i]?).map (fun m => m.month) = some mkey ∧
    ((calculateMonthlyMileage readings carId car)[j]?).map (fun m => m.month) = some mkey ∧
    (∀ (n : Nat) (nowYm : Ym) (t : Nat), t < n →
      Ym.ofIdx (nowYm.idx - (n - 1) + t) = mkey →
      (∀ k, (hk : k < (calculateMonthlyMileage readings carId car).length) → j < k →
        ((calculateMonthlyMileage readings carId car)[k]).month ≠ mkey) →
      (fillMonthlyMileageGaps (calculateMonthlyMileage readings carId car) n nowYm)[t]? =
        (calculateMonthlyMileage readings carId car)[j]?) := by
  refine ⟨calculateMonthlyMileage_length readings carId car, ?_, ?_, ?_⟩
  · rw [calculateMonthlyMileage_month]
    exact hsi
  · rw [calculateMonthlyMileage_month]
    exact hsj
  · intro n nowYm t ht hkeyEq hlast
    obtain ⟨rj, hrj, hymj⟩ := Option.map_eq_some'.mp hsj
    have hjS : j < (carReadingsSorted readings carId).length :=
      (List.getElem?_eq_some_iff.mp hrj).1
    have hjM : j < (calculateMonthlyMileage readings carId car).length := by
      rw [calculateMonthlyMileage_length]
      exact hjS
    have hmonthj : ((calculateMonthlyMileage readings carId car)[j]).month = mkey := by
      have h3 : ((calculateMonthlyMileage readings carId car)[j]?).map
          (fun m => m.month) = some mkey := by
        rw [calculateMonthlyMileage_month]
        exact hsj
      rw [List.getElem?_eq_getElem hjM] at h3
      simpa using h3
    rw [fillMonthlyMileageGaps_getElem? _ n nowYm t ht, hkeyEq,
      dataMapLookup_of_last hjM hmonthj hlast, List.getElem?_eq_getElem hjM]

/-- Witness for `monthly_same_month_collision`: the June-2024 history `exJune`
(two readings, 2024-06-10 and 2024-06-20); with a one-month window at June
2024 the filled series carries the second (last-listed) record. -/
theorem monthly_same_month_collision_witness :
    (fillMonthlyMileageGaps (calculateMonthlyMileage exJune "car-1" none) 1 ⟨2024, 6⟩)[0]? =
      (calculateMonthlyMileage exJune "car-1" none)[1]? :=
  (@monthly_same_month_collision exJune "car-1" none 0 1 ⟨2024, 6⟩
      (by decide) (by decide) (by decide)).2.2.2 1 ⟨2024, 6⟩ 0 (by decide) (by decide)
    (by
      intro k hk h1k
      have hlen : (calculateMonthlyMileage exJune "car-1" none).length = 2 := by decide
      rw [hlen] at hk
      exact absurd hk (by omega))

theorem selectPrevReading_eq_client (table : List OdometerReading)
    (newRow : OdometerReading) :
    selectPrevReading table newRow =
      getReadingBeforeDate (filterExclude table (some newRow.id)) newRow.carId
        newRow.date := by
  unfold selectPrevReading getReadingBeforeDate filterExclude
  rw [List.filter_filter]

theorem selectNextReading_eq_client (table : List OdometerReading)
    (newRow : OdometerReading) :
    selectNextReading table newRow =
      getReadingAfterDate (filterExclude table (some newRow.id)) newRow.carId
        newRow.date := by
  unfold selectNextReading getReadingAfterDate filterExclude
  rw [List.filter_filter]

/-- C9, as stated, fails: with an empty reading table and car-1 carrying
initial odometer 100, the trigger raises for the first reading 50 (its
first-reading-vs-initial-odometer check), while the client validator fully
accepts the same candidate — so the two do not enforce the same invariant. -/
theorem trigger_client_equiv_counterexample :
    validate_reading_sequence [] exCars exNewLow = true ∧
    validateReadingInSequence [] "car-1" ⟨2024, 5, 1⟩ 50 (some "new") =
      { isValid := true, error := none, minValue := none, maxValue := none } := by
  decide

/-- C9 (amended): assuming no other row of the vehicle shares the candidate's
date (the table's per-vehicle uniqueness invariant), the trigger raises iff the
client validator rejects the candidate with a range bound (below the nearest
earlier reading or above the nearest later one, the candidate's own id
excluded), OR the candidate has no predecessor and its value is below the
car's initial odometer — a check only the trigger performs. -/
theorem trigger_client_equiv {table : List OdometerReading} {cars : List Car}
    {newRow : OdometerReading}
    (hnodup : ∀ r ∈ table, r.id ≠ newRow.id → r.carId = newRow.carId →
      r.date ≠ newRow.date) :
    validate_reading_sequence table cars newRow = true ↔
      (((validateReadingInSequence table newRow.carId newRow.date newRow.reading
          (some newRow.id)).isValid = false ∧
        ((validateReadingInSequence table newRow.carId newRow.date newRow.reading
          (some newRow.id)).minValue.isSome = true ∨
         (validateReadingInSequence table newRow.carId newRow.date newRow.reading
          (some newRow.id)).maxValue.isSome = true)) ∨
       (getReadingBeforeDate (filterExclude table (some newRow.id)) newRow.carId
          newRow.date = none ∧
        ∃ io, ((cars.find? (fun c => c.id == newRow.carId)).bind Car.initialOdometer) =
          some io ∧ newRow.reading < io)) := by
  have hfind : ((filterExclude table (some newRow.id)).find?
      (fun r => r.carId == newRow.carId && r.date == newRow.date)) = none := by
    rw [List.find?_eq_none]
    intro x hx
    unfold filterExclude at hx
    rw [List.mem_filter] at hx
    obtain ⟨hx1, hx2⟩ := hx
    simp only [bne_iff_ne, ne_eq] at hx2
    simp only [Bool.and_eq_true, beq_iff_eq, not_and]
    intro hcar
    exact hnodup x hx1 hx2 hcar
  simp only [validate_reading_sequence]
  rw [selectPrevReading_eq_client, selectNextReading_eq_client]
  simp only [validateReadingInSequence]
  rw [hfind]
  cases hp : getReadingBeforeDate (filterExclude table (some newRow.id))
      newRow.carId newRow.date with
  | some p =>
    cases hn : getReadingAfterDate (filterExclude table (some newRow.id))
        newRow.carId newRow.date with
    | some nx =>
      by_cases h1 : newRow.reading < p.reading
      · simp [h1]
      · by_cases h2 : nx.reading < newRow.reading
        · simp [h1, h2]
        · simp [h1, h2]
    | none =>
      by_cases h1 : newRow.reading < p.reading
      · simp [h1]
      · simp [h1]
  | none =>
    cases hn : getReadingAfterDate (filterExclude table (some newRow.id))
        newRow.carId newRow.date with
    | some nx =>
      cases hio : (cars.find? (fun c => c.id == newRow.carId)).bind Car.initialOdometer with
      | none =>
        by_cases h2 : nx.reading < newRow.reading
        · simp [h2]
        · simp [h2]
      | some io =>
        by_cases h2 : nx.reading < newRow.reading
        · simp [h2]
        · by_cases h3 : newRow.reading < io
          · simp [h2, h3]
          · simp [h2, h3]
    | none =>
      cases hio : (cars.find? (fun c => c.id == newRow.carId)).bind Car.initialOdometer with
      | none => simp
      | some io =>
        by_cases h3 : newRow.reading < io
        · simp [h3]
        · simp [h3]

/-- Witness for `trigger_client_equiv`: candidate 9000 below predecessor 10000
in `exHist`; both sides of the equivalence are inhabited. -/
theorem trigger_client_equiv_witness :
    validate_reading_sequence exHist [] exNewBelow = true ↔
      (((validateReadingInSequence exHist exNewBelow.carId exNewBelow.date
          exNewBelow.reading (some exNewBelow.id)).isValid = false ∧
        ((validateReadingInSequence exHist exNewBelow.carId exNewBelow.date
          exNewBelow.reading (some exNewBelow.id)).minValue.isSome = true ∨
         (validateReadingInSequence exHist exNewBelow.carId exNewBelow.date
          exNewBelow.reading (some exNewBelow.id)).maxValue.isSome = true)) ∨
       (getReadingBeforeDate (filterExclude exHist (some exNewBelow.id))
          exNewBelow.carId exNewBelow.date = none ∧
        ∃ io, ((([] : List Car).find? (fun c => c.id == exNewBelow.carId)).bind
          Car.initialOdometer) = some io ∧ exNewBelow.reading < io)) :=
  trigger_client_equiv (by decide)
